import Mathlib

/-!
Shallow embedding of the leaderboard backend (src/src/index.ts).

The program is an Express + Mongoose service with four routes:
  POST /add-user, POST /claim-points, GET /rankings, GET /latest-claim-history.
State is the MongoDB content: a collection of `User` documents and a
collection of `History` documents.  We embed the database as explicit
lists, each route handler as a pure function on that state, and make the
handler's environment interactions explicit parameters:
  * `Math.random()` becomes a rational `r` (its contract: `0 ≤ r < 1`);
  * the server-assigned timestamp (`Date.now`) becomes a `now : Nat`;
  * the MongoDB-assigned `_id` of a new user becomes a `newId : String`;
  * an exception thrown by the storage layer inside the `try` block of the
    claim handler becomes a `fault : Bool` flag.
-/

namespace Leaderboard

/-- A `User` document: `_id`, `name`, and `points` (default 0). -/
structure User where
  id : String
  name : String
  points : Int
  deriving DecidableEq, Repr

/-- A `History` document: `userId` (ref to `User`), `points`, `timestamp`. -/
structure ClaimRecord where
  userId : String
  points : Int
  timestamp : Nat
  deriving DecidableEq, Repr

/-- The database state: the `User` collection and the `History` collection,
in insertion order. -/
structure DB where
  users : List User
  history : List ClaimRecord
  deriving DecidableEq, Repr

/-- `User.findById(uid)`: the document whose `_id` equals `uid`. -/
def findUser (db : DB) (uid : String) : Option User :=
  db.users.find? (fun u => u.id = uid)

/-- `Math.floor(Math.random() * 10) + 1` with `r` the value of
`Math.random()`. -/
def randomPoints (r : ℚ) : Int := ⌊r * 10⌋ + 1

/-- Model of JavaScript `String.prototype.trim`: remove leading and
trailing whitespace characters. -/
def jsTrim (s : String) : String :=
  ⟨((s.data.dropWhile Char.isWhitespace).reverse.dropWhile
      Char.isWhitespace).reverse⟩

/-- Outcome of the `POST /add-user` handler.  `thrown` models the handler
body raising a `TypeError` before sending any response (this happens when
`name` is `undefined`, since `name.trim()` dereferences it outside the
`try` block); `badRequest` is the `res.status(400)` response; `created u`
is the `res.status(201).send(newUser)` response. -/
inductive AddUserOutcome where
  | thrown
  | badRequest
  | created (u : User)
  deriving DecidableEq, Repr

/-- The HTTP status sent for each outcome (`none` when the handler threw
before responding). -/
def AddUserOutcome.status : AddUserOutcome → Option Nat
  | .thrown => none
  | .badRequest => some 400
  | .created _ => some 201

/-- The `POST /add-user` handler.  `name` is the request body's `name`
field (`none` when the field is absent, i.e. `undefined`); `newId` is the
`_id` MongoDB assigns to the new document.  The code destructures `name`
and runs `if (!name.trim()) return res.status(400)`, then saves
`new User({ name: name.trim() })` (points defaulting to 0) and responds
201 with the new user. -/
def addUser (db : DB) (name : Option String) (newId : String) :
    AddUserOutcome × DB :=
  match name with
  | none => (.thrown, db)
  | some n =>
    if jsTrim n = "" then (.badRequest, db)
    else
      let u : User := { id := newId, name := jsTrim n, points := 0 }
      (.created u, { db with users := db.users ++ [u] })

/-- Transaction resolution of one `POST /claim-points` call: `noTx` when
the handler returned before `startSession`/`startTransaction`, otherwise
`committed` or `aborted`. -/
inductive TxOutcome where
  | noTx
  | committed
  | aborted
  deriving DecidableEq, Repr

/-- Result of one `POST /claim-points` call: the HTTP status, the database
after the call, how the transaction resolved, whether
`session.endSession()` was called before returning, and the awarded
amount sent in the response (`none` unless the claim succeeded). -/
structure ClaimResult where
  status : Nat
  db : DB
  tx : TxOutcome
  sessionEnded : Bool
  award : Option Int
  deriving DecidableEq, Repr

/-- `user.points += randomPoints; await user.save({ session })`: saving the
looked-up document updates, in the `User` collection, the document whose
`_id` matches, adding the award to its points. -/
def awardUpdate (uid : String) (a : Int) (u : User) : User :=
  if u.id = uid then { u with points := u.points + a } else u

/-- The `POST /claim-points` handler.  `userId` is the request body's
`userId` field (`none` when absent); `r` is the value of `Math.random()`;
`now` is the server-assigned timestamp of the history record; `fault`
models the storage layer throwing inside the `try` block (caught by the
`catch`, which aborts the transaction, ends the session and responds
500; the abort discards every write done under the session, so the
database is unchanged).

Control flow of the source: a falsy `userId` (absent or empty string)
returns 400 before any session is started; then `randomPoints` is drawn,
a session and transaction are started, and the user is looked up.  If the
user is not found the transaction is aborted and 404 is returned — note
the code does NOT call `session.endSession()` on this path.  Otherwise
`user.points += randomPoints` is saved and a history record with the same
`randomPoints` and `timestamp := now` is appended, both under the
session; the transaction is committed, the session ended, and 200 is
returned with the updated user and the award. -/
def claimPoints (db : DB) (userId : Option String) (r : ℚ) (now : Nat)
    (fault : Bool) : ClaimResult :=
  match userId with
  | none => { status := 400, db := db, tx := .noTx, sessionEnded := false,
              award := none }
  | some uid =>
    if uid = "" then
      { status := 400, db := db, tx := .noTx, sessionEnded := false,
        award := none }
    else
      let award := randomPoints r
      if fault then
        { status := 500, db := db, tx := .aborted, sessionEnded := true,
          award := none }
      else
        match findUser db uid with
        | none =>
          { status := 404, db := db, tx := .aborted, sessionEnded := false,
            award := none }
        | some _ =>
          let users2 := db.users.map (awardUpdate uid award)
          let db2 : DB :=
            { users := users2,
              history := db.history ++
                [{ userId := uid, points := award, timestamp := now }] }
          { status := 200, db := db2, tx := .committed, sessionEnded := true,
            award := some award }

/-- The `GET /rankings` handler: `User.find().sort({ points: -1 })`, a
read-only query.  MongoDB's sort is modelled by a stable sort on points
descending; the second component records that the handler leaves the
database unchanged. -/
def rankings (db : DB) : List User × DB :=
  (db.users.insertionSort (fun a b => b.points ≤ a.points), db)

/-- The `GET /latest-claim-history` handler:
`History.find().sort({ timestamp: -1 }).limit(10).populate('userId', 'name')`,
a read-only query.  Sort timestamp-descending, keep at most 10 records,
and join each record with the current `name` of the referenced user
(`none` when no such user exists, as `populate` yields `null`).  The
second component records that the handler leaves the database
unchanged. -/
def latestClaimHistory (db : DB) : List (ClaimRecord × Option String) × DB :=
  (((db.history.insertionSort (fun a b => b.timestamp ≤ a.timestamp)).take
      10).map (fun h => (h, (findUser db h.userId).map User.name)), db)

/-- Total points recorded in the history log for a given user id. -/
def histSum (history : List ClaimRecord) (uid : String) : Int :=
  ((history.filter (fun h => h.userId = uid)).map ClaimRecord.points).sum

/-- Database states reachable by the system's operations, starting from
the empty store.  `addUserStep` requires the MongoDB-assigned `_id` to be
fresh (ObjectIds are unique); the other parameters of each operation are
arbitrary. -/
inductive Reachable : DB → Prop where
  | init : Reachable { users := [], history := [] }
  | addUserStep {db : DB} (name : Option String) (newId : String)
      (hfresh : ∀ u ∈ db.users, u.id ≠ newId) :
      Reachable db → Reachable (addUser db name newId).2
  | claimStep {db : DB} (userId : Option String) (r : ℚ) (now : Nat)
      (fault : Bool) :
      Reachable db → Reachable (claimPoints db userId r now fault).db

/-- A one-user store used to instantiate the theorems at concrete
inputs. -/
def exampleDB : DB :=
  { users := [{ id := "u1", name := "Ada", points := 0 }], history := [] }

/-- A three-user store with points 5, 1 and 9, the spec's rankings
round-trip example. -/
def rankingsExampleDB : DB :=
  DB.mk [User.mk "a" "A" 5, User.mk "b" "B" 1, User.mk "c" "C" 9] []

instance : IsTotal User (fun a b => b.points ≤ a.points) :=
  ⟨fun _ _ => le_total _ _⟩

instance : IsTrans User (fun a b => b.points ≤ a.points) :=
  ⟨fun _ _ _ hab hbc => le_trans hbc hab⟩

instance : IsTotal ClaimRecord (fun a b => b.timestamp ≤ a.timestamp) :=
  ⟨fun _ _ => Nat.le_total _ _⟩

instance : IsTrans ClaimRecord (fun a b => b.timestamp ≤ a.timestamp) :=
  ⟨fun _ _ _ hab hbc => le_trans hbc hab⟩

/-! Helper lemmas. -/

/-- The award computed from `Math.random()` lies in `[1, 10]` whenever the
random draw obeys its contract `0 ≤ r < 1`. -/
theorem randomPoints_bounds (r : ℚ) (h0 : 0 ≤ r) (h1 : r < 1) :
    1 ≤ randomPoints r ∧ randomPoints r ≤ 10 := by
  unfold randomPoints
  constructor
  · have hge : (0 : ℤ) ≤ ⌊r * 10⌋ := Int.floor_nonneg.mpr (by positivity)
    omega
  · have hlt : ⌊r * 10⌋ < 10 := by
      rw [Int.floor_lt]
      push_cast
      linarith
    omega

/-- Saving the looked-up user never changes any document's `_id`. -/
theorem awardUpdate_id (uid : String) (a : Int) (u : User) :
    (awardUpdate uid a u).id = u.id := by
  unfold awardUpdate
  split <;> rfl

/-- Finding by id commutes with the balance update. -/
theorem find?_map_awardUpdate (uid : String) (a : Int) :
    ∀ l : List User,
      (l.map (awardUpdate uid a)).find? (fun v => v.id = uid)
        = (l.find? (fun v => v.id = uid)).map (awardUpdate uid a)
  | [] => rfl
  | u :: l => by
    by_cases h : u.id = uid
    · simp [List.find?_cons, awardUpdate_id, h]
    · simp [List.find?_cons, awardUpdate_id, h, find?_map_awardUpdate uid a l]

/-- Unfolding a successful lookup: the found document is in the collection
and has the looked-up `_id`. -/
theorem findUser_eq_some {db : DB} {uid : String} {u : User}
    (h : findUser db uid = some u) : u ∈ db.users ∧ u.id = uid := by
  unfold findUser at h
  exact ⟨List.mem_of_find?_eq_some h, by simpa using List.find?_some h⟩

/-- Appending one record adds its points to the tally of its user and to
nobody else's. -/
theorem histSum_append (history : List ClaimRecord) (rec : ClaimRecord)
    (uid : String) :
    histSum (history ++ [rec]) uid
      = histSum history uid + (if rec.userId = uid then rec.points else 0) := by
  unfold histSum
  rw [List.filter_append]
  split <;> simp_all

/-- A user id mentioned by no record has an empty tally. -/
theorem histSum_eq_zero (history : List ClaimRecord) (uid : String)
    (h : ∀ rec ∈ history, rec.userId ≠ uid) : histSum history uid = 0 := by
  unfold histSum
  have : history.filter (fun rec => rec.userId = uid) = [] := by
    rw [List.filter_eq_nil_iff]
    intro rec hrec
    simpa using h rec hrec
  rw [this]
  rfl

/-! Claim theorems. -/

/-- C6: a claim-points request whose `userId` is absent or the empty string
fails with HTTP 400, opens no transaction, and leaves the database
unchanged. -/
theorem claim_missing_userId (db : DB) (userId : Option String) (r : ℚ)
    (now : Nat) (fault : Bool) (h : userId = none ∨ userId = some "") :
    (claimPoints db userId r now fault).status = 400 ∧
    (claimPoints db userId r now fault).tx = .noTx ∧
    (claimPoints db userId r now fault).db = db := by
  rcases h with h | h <;> subst h <;> simp [claimPoints]

/-- Witness for C6 at a concrete input: an absent `userId` gives 400 with
no transaction. -/
theorem claim_missing_userId_witness :
    (claimPoints exampleDB none 0 0 false).status = 400 ∧
    (claimPoints exampleDB none 0 0 false).tx = .noTx ∧
    (claimPoints exampleDB none 0 0 false).db = exampleDB :=
  claim_missing_userId exampleDB none 0 0 false (Or.inl rfl)

/-- C3: a claim-points request with a non-empty `userId` matching no user
aborts the transaction, fails with HTTP 404, creates no record and changes
no balance (the database is unchanged). -/
theorem claim_nonexistent_user (db : DB) (uid : String) (r : ℚ) (now : Nat)
    (huid : uid ≠ "") (hfind : findUser db uid = none) :
    (claimPoints db (some uid) r now false).status = 404 ∧
    (claimPoints db (some uid) r now false).tx = .aborted ∧
    (claimPoints db (some uid) r now false).db = db := by
  simp [claimPoints, huid, hfind]

/-- Witness for C3 at a concrete input: claiming for an id not in the
store is a 404 abort that leaves the store unchanged. -/
theorem claim_nonexistent_user_witness :
    (claimPoints exampleDB (some "u2") 0 0 false).status = 404 ∧
    (claimPoints exampleDB (some "u2") 0 0 false).tx = .aborted ∧
    (claimPoints exampleDB (some "u2") 0 0 false).db = exampleDB :=
  claim_nonexistent_user exampleDB "u2" 0 0 (by decide) (by decide)

/-- C5 counterexample: on the user-not-found path the transaction is
opened and aborted, but `session.endSession()` is never called, so the
scoped session resource is left dangling on that exit path. -/
theorem claim_session_leak_on_not_found :
    (claimPoints exampleDB (some "u2") 0 0 false).tx = .aborted ∧
    (claimPoints exampleDB (some "u2") 0 0 false).sessionEnded = false := by
  decide

/-- C5 amended: on every exit path after a transaction has been opened the
transaction is committed or aborted before the handler returns, and the
session is ended exactly on the paths that do not answer 404 (on the
user-not-found path the session is not ended). -/
theorem claim_tx_resolved (db : DB) (userId : Option String) (r : ℚ)
    (now : Nat) (fault : Bool)
    (hopen : (claimPoints db userId r now fault).tx ≠ .noTx) :
    ((claimPoints db userId r now fault).tx = .committed ∨
      (claimPoints db userId r now fault).tx = .aborted) ∧
    ((claimPoints db userId r now fault).sessionEnded = true ↔
      (claimPoints db userId r now fault).status ≠ 404) := by
  cases userId with
  | none => simp [claimPoints] at hopen
  | some uid =>
    by_cases he : uid = ""
    · simp [claimPoints, he] at hopen
    · cases hf : fault with
      | true => simp [claimPoints, he, hf]
      | false =>
        cases hfind : findUser db uid with
        | none => simp [claimPoints, he, hf, hfind]
        | some u => simp [claimPoints, he, hf, hfind]

/-- Witness for the amended C5 at a concrete input: a successful claim
commits its transaction and ends its session. -/
theorem claim_tx_resolved_witness :
    ((claimPoints exampleDB (some "u1") 0 0 false).tx = .committed ∨
      (claimPoints exampleDB (some "u1") 0 0 false).tx = .aborted) ∧
    ((claimPoints exampleDB (some "u1") 0 0 false).sessionEnded = true ↔
      (claimPoints exampleDB (some "u1") 0 0 false).status ≠ 404) :=
  claim_tx_resolved exampleDB (some "u1") 0 0 false (by decide)

/-- C7: an add-user request whose name trims to the empty string fails
with HTTP 400 and creates no user; one with a non-whitespace name answers
HTTP 201 with a created user whose points are 0, appended to the store. -/
theorem add_user_validation (db : DB) (n : String) (newId : String) :
    (jsTrim n = "" →
      (addUser db (some n) newId).1.status = some 400 ∧
      (addUser db (some n) newId).2 = db) ∧
    (jsTrim n ≠ "" →
      ∃ u, (addUser db (some n) newId).1 = .created u ∧
        (addUser db (some n) newId).1.status = some 201 ∧
        u.points = 0 ∧
        (addUser db (some n) newId).2
          = { db with users := db.users ++ [u] }) := by
  constructor
  · intro h
    simp [addUser, AddUserOutcome.status, h]
  · intro h
    refine ⟨{ id := newId, name := jsTrim n, points := 0 }, ?_, ?_, rfl, ?_⟩ <;>
      simp [addUser, AddUserOutcome.status, h]

/-- Witness for C7 at concrete inputs: a whitespace-only name gives a 400
with no new user, and the name "Ada" gives a 201 user with 0 points. -/
theorem add_user_validation_witness :
    ((addUser exampleDB (some "  ") "u9").1.status = some 400 ∧
      (addUser exampleDB (some "  ") "u9").2 = exampleDB) ∧
    (∃ u, (addUser exampleDB (some "Ada") "u9").1 = .created u ∧
      (addUser exampleDB (some "Ada") "u9").1.status = some 201 ∧
      u.points = 0 ∧
      (addUser exampleDB (some "Ada") "u9").2
        = { exampleDB with users := exampleDB.users ++ [u] }) :=
  ⟨(add_user_validation exampleDB "  " "u9").1 (by decide),
    (add_user_validation exampleDB "Ada" "u9").2 (by decide)⟩

/-- C10: an add-user request with no `name` field at all makes the handler
throw (dereferencing `undefined`) instead of answering; the 400 outcome is
only ever produced for a present string name (one that trims to empty). -/
theorem add_user_missing_name (db : DB) (name : Option String)
    (newId : String) :
    (name = none → (addUser db name newId).1 = .thrown ∧
      (addUser db name newId).1.status = none) ∧
    ((addUser db name newId).1 = .badRequest →
      ∃ n, name = some n ∧ jsTrim n = "") := by
  cases name with
  | none => exact ⟨fun _ => ⟨rfl, rfl⟩, by simp [addUser]⟩
  | some n =>
    constructor
    · intro h
      exact absurd h (by simp)
    · intro h
      by_cases ht : jsTrim n = ""
      · exact ⟨n, rfl, ht⟩
      · simp [addUser, ht] at h

/-- Witness for C10 at concrete inputs: an absent name throws, and the 400
outcome observed for the name consisting of two spaces comes with that
name being a present, whitespace-only string. -/
theorem add_user_missing_name_witness :
    ((addUser exampleDB none "u9").1 = .thrown ∧
      (addUser exampleDB none "u9").1.status = none) ∧
    (∃ n, (some "  " : Option String) = some n ∧ jsTrim n = "") :=
  ⟨(add_user_missing_name exampleDB none "u9").1 rfl,
    (add_user_missing_name exampleDB (some "  ") "u9").2 (by decide)⟩

/-- C8: the rankings query returns exactly the stored users (a
permutation), ordered by points descending, mutates nothing, and on a
store holding points 5, 1, 9 it returns them in order 9, 5, 1. -/
theorem rankings_spec (db : DB) :
    (rankings db).1.Perm db.users ∧
    List.Sorted (fun a b : User => b.points ≤ a.points) (rankings db).1 ∧
    (rankings db).2 = db ∧
    (rankings rankingsExampleDB).1.map User.points = [9, 5, 1] :=
  ⟨List.perm_insertionSort _ _, List.sorted_insertionSort _ _, rfl, by decide⟩

/-- C9: the recent-history query returns at most 10 records, ordered by
timestamp descending, each taken from the stored history and enriched with
the current name of the referenced user, and mutates nothing. -/
theorem latest_history_spec (db : DB) :
    (latestClaimHistory db).1.length ≤ 10 ∧
    List.Sorted (fun p q : ClaimRecord × Option String =>
      q.1.timestamp ≤ p.1.timestamp) (latestClaimHistory db).1 ∧
    (∀ p ∈ (latestClaimHistory db).1,
      p.1 ∈ db.history ∧ p.2 = (findUser db p.1.userId).map User.name) ∧
    (latestClaimHistory db).2 = db := by
  refine ⟨?_, ?_, ?_, rfl⟩
  · simp [latestClaimHistory]
  · have hs : List.Sorted (fun a b : ClaimRecord => b.timestamp ≤ a.timestamp)
        ((db.history.insertionSort
          (fun a b => b.timestamp ≤ a.timestamp)).take 10) :=
      (List.sorted_insertionSort _ _).sublist (List.take_sublist _ _)
    show List.Pairwise _ _
    rw [latestClaimHistory, List.pairwise_map]
    exact hs
  · intro p hp
    rw [latestClaimHistory, List.mem_map] at hp
    obtain ⟨rec, hrec, rfl⟩ := hp
    refine ⟨?_, rfl⟩
    have hmem : rec ∈ db.history.insertionSort
        (fun a b => b.timestamp ≤ a.timestamp) :=
      (List.take_sublist _ _).subset hrec
    exact (List.perm_insertionSort _ _).subset hmem

/-- Witness for C9 at a concrete input, instantiating the query's
contract on the one-user store. -/
theorem latest_history_spec_witness :
    (latestClaimHistory exampleDB).1.length ≤ 10 ∧
    List.Sorted (fun p q : ClaimRecord × Option String =>
      q.1.timestamp ≤ p.1.timestamp) (latestClaimHistory exampleDB).1 ∧
    (∀ p ∈ (latestClaimHistory exampleDB).1,
      p.1 ∈ exampleDB.history ∧
        p.2 = (findUser exampleDB p.1.userId).map User.name) ∧
    (latestClaimHistory exampleDB).2 = exampleDB :=
  latest_history_spec exampleDB

/-- C1: every claim that answers HTTP 200 awarded an integer amount in
`[1, 10]`; the claimed user's balance afterwards is its balance before
plus exactly that amount, and exactly one history record was appended,
carrying that same amount (the hypotheses `0 ≤ r < 1` are the contract of
`Math.random()`). -/
theorem claim_success_spec (db : DB) (userId : Option String) (r : ℚ)
    (now : Nat) (fault : Bool) (h0 : 0 ≤ r) (h1 : r < 1)
    (h200 : (claimPoints db userId r now fault).status = 200) :
    ∃ uid a u, userId = some uid ∧
      (claimPoints db userId r now fault).award = some a ∧
      1 ≤ a ∧ a ≤ 10 ∧
      findUser db uid = some u ∧
      findUser (claimPoints db userId r now fault).db uid
        = some { u with points := u.points + a } ∧
      (claimPoints db userId r now fault).db.history
        = db.history ++ [{ userId := uid, points := a, timestamp := now }] := by
  cases userId with
  | none => simp [claimPoints] at h200
  | some uid =>
    by_cases he : uid = ""
    · simp [claimPoints, he] at h200
    · cases hf : fault with
      | true => simp [claimPoints, he, hf] at h200
      | false =>
        cases hfind : findUser db uid with
        | none => simp [claimPoints, he, hf, hfind] at h200
        | some u =>
          obtain ⟨hb1, hb2⟩ := randomPoints_bounds r h0 h1
          refine ⟨uid, randomPoints r, u, rfl, ?_, hb1, hb2, hfind, ?_, ?_⟩
          · simp [claimPoints, he, hf, hfind]
          · have hid := (findUser_eq_some hfind).2
            have hmap := find?_map_awardUpdate uid (randomPoints r) db.users
            simp only [claimPoints, he, hf, hfind, if_neg, Bool.false_eq_true,
              if_false]
            unfold findUser at hfind ⊢
            simp only [hmap, hfind, Option.map_some]
            simp [awardUpdate, hid]
          · simp [claimPoints, he, hf, hfind]

/-- Witness for C1 at a concrete input: the user "u1" of the one-user
store successfully claims with random draw 0 at time 5. -/
theorem claim_success_spec_witness :
    ∃ uid a u, (some "u1" : Option String) = some uid ∧
      (claimPoints exampleDB (some "u1") 0 5 false).award = some a ∧
      1 ≤ a ∧ a ≤ 10 ∧
      findUser exampleDB uid = some u ∧
      findUser (claimPoints exampleDB (some "u1") 0 5 false).db uid
        = some { u with points := u.points + a } ∧
      (claimPoints exampleDB (some "u1") 0 5 false).db.history
        = exampleDB.history
          ++ [{ userId := uid, points := a, timestamp := 5 }] :=
  claim_success_spec exampleDB (some "u1") 0 5 false (by decide) zero_lt_one
    (by decide)

/-- C2: in every reachable database state, each user's balance equals the
total of the history records for that user (every record's award is
reflected in the balance, and every balance increment has its record), and
every history record references an existing user. -/
theorem reachable_consistency {db : DB} (h : Reachable db) :
    (∀ u ∈ db.users, u.points = histSum db.history u.id) ∧
    (∀ rec ∈ db.history, ∃ u ∈ db.users, u.id = rec.userId) := by
  induction h with
  | init => simp
  | @addUserStep d name newId hfresh hdb ih =>
    cases name with
    | none => simpa [addUser] using ih
    | some n =>
      by_cases ht : jsTrim n = ""
      · simpa [addUser, ht] using ih
      · simp only [addUser, ht, if_neg, reduceCtorEq, not_false_eq_true]
        constructor
        · intro u hu
          rw [List.mem_append] at hu
          rcases hu with hu | hu
          · exact ih.1 u hu
          · rw [List.mem_singleton] at hu
            subst hu
            have hnone : ∀ rec ∈ d.history, rec.userId ≠ newId := by
              intro rec hrec heq
              obtain ⟨w, hw, hwid⟩ := ih.2 rec hrec
              exact hfresh w hw (hwid.trans heq)
            simp [histSum_eq_zero d.history newId hnone]
        · intro rec hrec
          obtain ⟨w, hw, hwid⟩ := ih.2 rec hrec
          exact ⟨w, List.mem_append_left _ hw, hwid⟩
  | @claimStep d userId r now fault hdb ih =>
    cases userId with
    | none => simpa [claimPoints] using ih
    | some uid =>
      by_cases he : uid = ""
      · simpa [claimPoints, he] using ih
      · cases hf : fault with
        | true => simpa [claimPoints, he, hf] using ih
        | false =>
          cases hfind : findUser d uid with
          | none => simpa [claimPoints, he, hf, hfind] using ih
          | some w =>
            simp only [claimPoints, he, hf, hfind, if_neg,
              Bool.false_eq_true, if_false]
            constructor
            · intro v hv
              rw [List.mem_map] at hv
              obtain ⟨u0, hu0, rfl⟩ := hv
              rw [awardUpdate_id, histSum_append]
              by_cases hid : u0.id = uid
              · simp [awardUpdate, hid, ih.1 u0 hu0]
              · have hne : ¬uid = u0.id := fun hx => hid hx.symm
                simp [awardUpdate, hid, hne, ih.1 u0 hu0]
            · intro rec hrec
              rw [List.mem_append] at hrec
              rcases hrec with hrec | hrec
              · obtain ⟨w1, hw1, hw1id⟩ := ih.2 rec hrec
                exact ⟨awardUpdate uid (randomPoints r) w1,
                  List.mem_map_of_mem _ hw1,
                  by rw [awardUpdate_id]; exact hw1id⟩
              · rw [List.mem_singleton] at hrec
                subst hrec
                obtain ⟨hwmem, hwid⟩ := findUser_eq_some hfind
                exact ⟨awardUpdate uid (randomPoints r) w,
                  List.mem_map_of_mem _ hwmem,
                  by rw [awardUpdate_id]; exact hwid⟩

/-- Witness for C2: the invariant holds in the initial empty store. -/
theorem reachable_consistency_witness :
    (∀ u ∈ (DB.mk [] []).users,
      u.points = histSum (DB.mk [] []).history u.id) ∧
    (∀ rec ∈ (DB.mk [] []).history,
      ∃ u ∈ (DB.mk [] []).users, u.id = rec.userId) :=
  reachable_consistency Reachable.init

end Leaderboard
